import Mathlib

/-!
Shallow embedding of `src/main.py` (class `RealtorScraper`): a Realtor.com
listing scraper.  Selenium lookups that may raise are modelled as `Option`
values (`none` = the lookup raised an exception); the browser is abstracted
by oracles recording, for each page, whether each navigation attempt
succeeds and what listing elements the page holds.
-/

namespace RealtorScraper

/-- One listing element (`div[@data-search-rank]`).  Each field records the
outcome of the corresponding `find_element(...).text` /
`get_attribute('href')` call inside the per-listing `try` block of
`scrape_data`: `none` means the lookup raised, `some s` that it returned
text `s`. -/
structure PropElem where
  linkLookup : Option String
  statusLookup : Option String
  priceLookup : Option String
  bedLookup : Option String
  bathLookup : Option String
  sqftLookup : Option String
  lotSizeLookup : Option String
  addressLookup : Option String
deriving DecidableEq, Repr

/-- A scraped record: the Python dict, as an ordered association list. -/
abbrev Record := List (String × String)

/-- Python truthiness fallback `s or 'N/A'`: the empty string is falsy. -/
def orNA (s : String) : String := if s = "" then "N/A" else s

/-- Worker for `pySplit`: scan the characters, accumulating the current
word in reverse; whitespace ends a word, and empty words are dropped. -/
def splitWsGo : List Char → List Char → List String
  | [], cur => if cur = [] then [] else [String.mk cur.reverse]
  | c :: cs, cur =>
    if c.isWhitespace then
      (if cur = [] then [] else [String.mk cur.reverse]) ++ splitWsGo cs []
    else splitWsGo cs (c :: cur)

/-- Python `text.split()`: split on whitespace, dropping empty pieces. -/
def pySplit (s : String) : List String := splitWsGo s.data []

/-- Python `' '.join(text.split())` applied to the address text. -/
def normAddress (s : String) : String := String.intercalate " " (pySplit s)

/-- The body of the per-listing `try` block of `scrape_data`: all eight
lookups run in sequence inside one `try`; if any of them raises the
`except` swallows the error and no record is produced (`none`).
Otherwise the dict literal of lines 143-152 is built. -/
def scrapeListing (p : PropElem) : Option Record := do
  let link ← p.linkLookup
  let status ← p.statusLookup
  let price ← p.priceLookup
  let bed ← p.bedLookup
  let bath ← p.bathLookup
  let sqft ← p.sqftLookup
  let lotSize ← p.lotSizeLookup
  let addressText ← p.addressLookup
  some [("Property Status", status),
        ("Price", price),
        ("Bed", orNA bed),
        ("Bath", orNA bath),
        ("Sqft", orNA sqft),
        ("Lot Size", orNA lotSize),
        ("Address", normAddress addressText),
        ("Link", link)]

/-- Embedding of `scrape_data`: `driver.find_elements` may raise (outer `try`,
modelled by `none`), otherwise yields the page's listing elements; each
listing that survives its `try` block is appended to the accumulator
`self.data`. -/
def scrape_data (page : Option (List PropElem)) (acc : List Record) :
    List Record :=
  match page with
  | none => acc
  | some props => acc ++ props.filterMap scrapeListing

/-- The eight dict keys of a scraped record, in insertion order. -/
def fieldNames : List String :=
  ["Property Status", "Price", "Bed", "Bath", "Sqft", "Lot Size",
   "Address", "Link"]

/-- The keys of a record, in order. -/
def keysOf (r : Record) : List String := r.map Prod.fst

/-- Little-endian decimal digits of `n`, with explicit fuel so the
definition is structural and computes in the kernel; `fuel ≥ n`
suffices. -/
def natDigitsGo : Nat → Nat → List Nat
  | 0, _ => []
  | _ + 1, 0 => []
  | fuel + 1, n + 1 => ((n + 1) % 10) :: natDigitsGo fuel ((n + 1) / 10)

/-- Python `str` on a nonnegative int: its decimal digit string
(most significant digit first). -/
def natRepr (n : Nat) : String :=
  if n = 0 then "0"
  else String.mk (((natDigitsGo n n).reverse).map (fun d => Char.ofNat (d + 48)))

/-- The fixed base path of the search URL. -/
def urlPrefix : String := "https://www.realtor.com/realestateandhomes-search/"

/-- Embedding of `get_page_url`: the f-string
`https://www.realtor.com/realestateandhomes-search/\x7bzipcode\x7d/pg-\x7bpage\x7d`. -/
def get_page_url (zipcode page : Nat) : String :=
  urlPrefix ++ natRepr zipcode ++ "/pg-" ++ natRepr page

/-- Whether a character is a decimal digit (codepoints 48-57). -/
def isDigitChar (c : Char) : Bool := 48 ≤ c.toNat && c.toNat ≤ 57

/-- Parse a nonempty all-digit character list as a decimal number. -/
def parseNatChars (cs : List Char) : Option Nat :=
  if cs ≠ [] ∧ cs.all isDigitChar then
    some (Nat.ofDigits 10 ((cs.reverse).map (fun c => c.toNat - 48)))
  else none

/-- Recover the ZIP code and page number from their fixed positions in a
search URL: the segment between the base path and the next `/` is the
ZIP, the digits after `/pg-` are the page. -/
def parseUrl (s : String) : Option (Nat × Nat) :=
  let cs := s.data
  let pre := urlPrefix.data
  if cs.take pre.length = pre then
    let rest := cs.drop pre.length
    let zcs := rest.takeWhile (fun c => c != '/')
    let rest2 := rest.drop zcs.length
    if rest2.take 4 = ([ '/', 'p', 'g', '-'] : List Char) then
      match parseNatChars zcs, parseNatChars (rest2.drop 4) with
      | some z, some pg => some (z, pg)
      | _, _ => none
    else none
  else none

/-- Number of positions in `hay` at which `needle` occurs as a contiguous
substring. -/
def countOccur (needle hay : List Char) : Nat :=
  ((List.range (hay.length + 1)).filter
    (fun i => (hay.drop i).take needle.length = needle)).length

/-- Retry loop of `load_page`, `for retry in range(1, retries + 1)`:
`oracle k` tells whether attempt number `k` (navigation plus the wait for
the `PropertiesList_propertiesContainer` section) succeeds; on the first
success the function returns `True` at once, after exhausting the attempts
it returns `False`. -/
def loadPageGo (oracle : Nat → Bool) : Nat → Nat → Bool
  | 0, _ => false
  | n + 1, k => if oracle k then true else loadPageGo oracle n (k + 1)

/-- Embedding of `load_page(retries=3)` as a function of the attempt
oracle. -/
def load_page (oracle : Nat → Bool) (retries : Nat := 3) : Bool :=
  loadPageGo oracle retries 1

/-- How many navigation attempts `load_page` actually makes. -/
def loadPageAttemptsGo (oracle : Nat → Bool) : Nat → Nat → Nat
  | 0, _ => 0
  | n + 1, k => if oracle k then 1 else 1 + loadPageAttemptsGo oracle n (k + 1)

/-- Number of attempts made by `load_page(retries)`. -/
def loadPageAttempts (oracle : Nat → Bool) (retries : Nat := 3) : Nat :=
  loadPageAttemptsGo oracle retries 1

/-- The browser environment a run sees: for each page number, the outcome
of each navigation attempt, and the listing elements found on the page
once it is loaded (`none` = `find_elements` raised). -/
structure Env where
  loadOracle : Nat → Nat → Bool
  content : Nat → Option (List PropElem)

/-- Result of the `while self.page <= 5` loop of `run`. -/
structure LoopResult where
  data : List Record
  iters : Nat
  finalPage : Nat
  loadFailed : Bool
deriving DecidableEq, Repr

/-- The `while self.page <= 5` loop, fuel-indexed so that it computes;
`iters` counts loop-body entries.  A failed `load_page` breaks out of the
loop; a successful one is followed by `scrape_data` and `self.page += 1`. -/
def runLoopGo (env : Env) : Nat → Nat → List Record → Nat → LoopResult
  | 0, page, acc, iters => ⟨acc, iters, page, false⟩
  | fuel + 1, page, acc, iters =>
    if page ≤ 5 then
      if load_page (env.loadOracle page) 3 then
        runLoopGo env fuel (page + 1)
          (scrape_data (env.content page) acc) (iters + 1)
      else ⟨acc, iters + 1, page, true⟩
    else ⟨acc, iters, page, false⟩

/-- The run loop started at `self.page = 1` with an empty accumulator.
Fuel 6 suffices: the page counter can only reach 6 before the guard
`page ≤ 5` fails. -/
def runLoop (env : Env) : LoopResult := runLoopGo env 6 1 [] 0

/-- Append a column name if it has not been seen yet. -/
def insertKey (cs : List String) (k : String) : List String :=
  if k ∈ cs then cs else cs ++ [k]

/-- Column order chosen by `pd.DataFrame(list_of_dicts)`: the union of the
records' keys in first-seen order. -/
def dfColumns (records : List Record) : List String :=
  records.foldl (fun cols r => r.foldl (fun cs kv => insertKey cs kv.1) cols) []

/-- The CSV table written by `to_csv(index=False)`: a header row of column
names followed by one row per record (missing keys rendered empty). -/
def toCsvTable (records : List Record) : List (List String) :=
  dfColumns records ::
    records.map (fun r => (dfColumns records).map (fun c => ((r.lookup c).getD "")))

/-- Embedding of `run` after the loop: `if self.data:` writes
`output.csv`, else no file is produced. -/
def run (env : Env) : LoopResult × Option (String × List (List String)) :=
  let r := runLoop env
  (r, if r.data = [] then none else some ("output.csv", toCsvTable r.data))

/-! ### Run with teardown events (for the `try`/`finally` guarantee)

`runE` re-runs the same loop while recording a trace of observable
actions, and lets an oracle inject a non-`Exception` interrupt (e.g.
`KeyboardInterrupt`) at the start of any iteration — the only way an
exception can escape the loop body, since `load_page` and `scrape_data`
catch `Exception` internally.  The `finally` clause always emits `quit`;
the CSV write of lines 61-62 happens after it, and only when the loop
ended normally. -/

/-- Observable actions of `run`. -/
inductive Event
  | load (page : Nat) (ok : Bool)
  | scrape (page : Nat)
  | quit
  | write (rows : Nat)
deriving DecidableEq, Repr

/-- Whether the loop body finished normally or an interrupt escaped it. -/
inductive Outcome
  | normal
  | raised
deriving DecidableEq, Repr

/-- Environment extended with the interrupt oracle: `fatal page = true`
means an uncatchable interrupt fires during the iteration for `page`. -/
structure EnvE extends Env where
  fatal : Nat → Bool

/-- The loop of `run`, recording events and a possible escaping
interrupt. -/
def runBodyE (env : EnvE) :
    Nat → Nat → List Record → List Event → List Event × List Record × Outcome
  | 0, _, acc, tr => (tr, acc, Outcome.normal)
  | fuel + 1, page, acc, tr =>
    if page ≤ 5 then
      if env.fatal page then (tr, acc, Outcome.raised)
      else
        let ok := load_page (env.loadOracle page) 3
        if ok then
          runBodyE env fuel (page + 1) (scrape_data (env.content page) acc)
            (tr ++ [Event.load page ok, Event.scrape page])
        else (tr ++ [Event.load page ok], acc, Outcome.normal)
    else (tr, acc, Outcome.normal)

/-- Embedding of `run` with events: the loop, then the `finally`
(`driver.quit()`), then — only on normal completion — the conditional
CSV write. -/
def runE (env : EnvE) : List Event × Outcome :=
  match runBodyE env 6 1 [] [] with
  | (tr, _, Outcome.raised) => (tr ++ [Event.quit], Outcome.raised)
  | (tr, acc, Outcome.normal) =>
      (tr ++ [Event.quit] ++
        (if acc = [] then [] else [Event.write acc.length]), Outcome.normal)

/-! ### Concrete fixtures used to instantiate the theorems -/

/-- A listing element whose eight lookups all succeed with sample text. -/
def sampleElem : PropElem :=
  ⟨some "https://www.realtor.com/p/1", some "House for sale", some "$100,000",
   some "2", some "1", some "1,000", some "0.25 acre", some "1 Main St"⟩

/-- The record `scrape_data` builds from `sampleElem`. -/
def sampleRecord : Record :=
  [("Property Status", "House for sale"), ("Price", "$100,000"), ("Bed", "2"),
   ("Bath", "1"), ("Sqft", "1,000"), ("Lot Size", "0.25 acre"),
   ("Address", "1 Main St"), ("Link", "https://www.realtor.com/p/1")]

/-- The CSV table `run` writes when the accumulator is `[sampleRecord]`. -/
def sampleCsv : List (List String) :=
  [fieldNames,
   ["House for sale", "$100,000", "2", "1", "1,000", "0.25 acre",
    "1 Main St", "https://www.realtor.com/p/1"]]

/-- An environment whose first page loads and holds `sampleElem`; page 2
fails to load. -/
def envOnePage : Env :=
  ⟨fun page _ => page == 1, fun _ => some [sampleElem]⟩

/-- An environment whose pages all load with no listings, interrupted by a
fatal (non-`Exception`) error on page 2. -/
def envFatal : EnvE :=
  ⟨⟨fun _ _ => true, fun _ => some []⟩, fun page => page == 2⟩

/-- A listing element whose bed lookup raises and whose other seven
lookups succeed. -/
def c1Elem : PropElem :=
  ⟨some "https://www.realtor.com/p/7", some "House for sale", some "$250,000",
   none, some "2", some "1,500", some "0.3 acre", some "2 Oak Ave"⟩

/-- A listing element whose sqft lookup raises (used to instantiate the
amended C1 statement). -/
def c1WElem : PropElem :=
  ⟨some "https://www.realtor.com/p/8", some "Condo for sale", some "$300,000",
   some "1", some "1", none, some "0.1 acre", some "3 Elm St"⟩

/-- A listing element whose link lookup raises and whose other seven
lookups succeed. -/
def c2Elem : PropElem :=
  ⟨none, some "House for sale", some "$100,000", some "2", some "1",
   some "1,000", some "0.25 acre", some "1 Main St"⟩

/-- A listing element whose eight lookups succeed, several with empty
text. -/
def c10Elem : PropElem :=
  ⟨some "", some "", some "$1", some "", some "2", some "", some "1 acre",
   some ""⟩

/-- The record `scrape_data` builds from `c10Elem`. -/
def c10Record : Record :=
  [("Property Status", ""), ("Price", "$1"), ("Bed", "N/A"), ("Bath", "2"),
   ("Sqft", "N/A"), ("Lot Size", "1 acre"), ("Address", ""), ("Link", "")]

/-! ### Theorems -/

theorem scrapeListing_keys (p : PropElem) (r : Record)
    (h : scrapeListing p = some r) : keysOf r = fieldNames := by
  unfold scrapeListing at h
  cases hl : p.linkLookup with
  | none => simp [hl] at h
  | some link =>
  cases hs : p.statusLookup with
  | none => simp [hl, hs] at h
  | some status =>
  cases hp : p.priceLookup with
  | none => simp [hl, hs, hp] at h
  | some price =>
  cases hb : p.bedLookup with
  | none => simp [hl, hs, hp, hb] at h
  | some bed =>
  cases hba : p.bathLookup with
  | none => simp [hl, hs, hp, hb, hba] at h
  | some bath =>
  cases hsq : p.sqftLookup with
  | none => simp [hl, hs, hp, hb, hba, hsq] at h
  | some sqft =>
  cases hlo : p.lotSizeLookup with
  | none => simp [hl, hs, hp, hb, hba, hsq, hlo] at h
  | some lotSize =>
  cases had : p.addressLookup with
  | none => simp [hl, hs, hp, hb, hba, hsq, hlo, had] at h
  | some addr =>
    simp [hl, hs, hp, hb, hba, hsq, hlo, had] at h
    subst h
    rfl

theorem scrapeListing_eq_none_iff (p : PropElem) :
    scrapeListing p = none ↔
      p.linkLookup = none ∨ p.statusLookup = none ∨ p.priceLookup = none ∨
      p.bedLookup = none ∨ p.bathLookup = none ∨ p.sqftLookup = none ∨
      p.lotSizeLookup = none ∨ p.addressLookup = none := by
  unfold scrapeListing
  cases hl : p.linkLookup with
  | none => simp
  | some link =>
  cases hs : p.statusLookup with
  | none => simp
  | some status =>
  cases hp : p.priceLookup with
  | none => simp
  | some price =>
  cases hb : p.bedLookup with
  | none => simp
  | some bed =>
  cases hba : p.bathLookup with
  | none => simp
  | some bath =>
  cases hsq : p.sqftLookup with
  | none => simp
  | some sqft =>
  cases hlo : p.lotSizeLookup with
  | none => simp
  | some lotSize =>
  cases had : p.addressLookup with
  | none => simp
  | some addr => simp

theorem scrape_data_skip_of_none (p : PropElem)
    (hn : scrapeListing p = none) (pre post : List PropElem)
    (acc : List Record) :
    scrape_data (some (pre ++ p :: post)) acc =
      scrape_data (some (pre ++ post)) acc := by
  simp [scrape_data, List.filterMap_append, List.filterMap_cons, hn]

/-- C1 fails on the code: a listing element whose bed lookup raises while
every other lookup succeeds yields no record at all — the single
per-listing `try` block swallows the failure and skips the whole listing,
instead of appending a record with `N/A` in the failed field. -/
theorem c1_counterexample :
    c1Elem.bedLookup = none ∧
    c1Elem.linkLookup.isSome ∧ c1Elem.statusLookup.isSome ∧
    c1Elem.priceLookup.isSome ∧ c1Elem.bathLookup.isSome ∧
    c1Elem.sqftLookup.isSome ∧ c1Elem.lotSizeLookup.isSome ∧
    c1Elem.addressLookup.isSome ∧
    scrape_data (some [c1Elem]) [] = [] := by
  refine ⟨rfl, rfl, rfl, rfl, rfl, rfl, rfl, rfl, ?_⟩
  decide

/-- C1 (amended): a listing element whose bed, bath, sqft, or lot-size
field lookup fails is entirely excluded from the accumulator — no record
is appended for it, the `N/A` placeholder is not produced by a lookup
failure — and the remaining listings on the page are still processed. -/
theorem c1_meta_lookup_failure_excludes (p : PropElem)
    (h : p.bedLookup = none ∨ p.bathLookup = none ∨ p.sqftLookup = none ∨
      p.lotSizeLookup = none) :
    scrapeListing p = none ∧
    ∀ (pre post : List PropElem) (acc : List Record),
      scrape_data (some (pre ++ p :: post)) acc =
        scrape_data (some (pre ++ post)) acc := by
  have hn : scrapeListing p = none := by
    rw [scrapeListing_eq_none_iff]; tauto
  exact ⟨hn, fun pre post acc => scrape_data_skip_of_none p hn pre post acc⟩

theorem c1_meta_lookup_failure_excludes_witness :
    scrapeListing c1WElem = none ∧
    scrape_data (some [sampleElem, c1WElem]) [] =
      scrape_data (some [sampleElem]) [] :=
  ⟨(c1_meta_lookup_failure_excludes c1WElem (Or.inr (Or.inr (Or.inl rfl)))).1,
   (c1_meta_lookup_failure_excludes c1WElem
      (Or.inr (Or.inr (Or.inl rfl)))).2 [sampleElem] [] []⟩

/-- C2: a listing element whose link, status, price, or address lookup
fails contributes no record to the accumulator, and the remaining
listings of the page are still processed. -/
theorem c2_critical_lookup_failure_excludes (p : PropElem)
    (h : p.linkLookup = none ∨ p.statusLookup = none ∨
      p.priceLookup = none ∨ p.addressLookup = none) :
    scrapeListing p = none ∧
    ∀ (pre post : List PropElem) (acc : List Record),
      scrape_data (some (pre ++ p :: post)) acc =
        scrape_data (some (pre ++ post)) acc := by
  have hn : scrapeListing p = none := by
    rw [scrapeListing_eq_none_iff]; tauto
  exact ⟨hn, fun pre post acc => scrape_data_skip_of_none p hn pre post acc⟩

theorem c2_critical_lookup_failure_excludes_witness :
    scrapeListing c2Elem = none ∧
    scrape_data (some [c2Elem, sampleElem]) [] =
      scrape_data (some [sampleElem]) [] :=
  ⟨(c2_critical_lookup_failure_excludes c2Elem (Or.inl rfl)).1,
   (c2_critical_lookup_failure_excludes c2Elem (Or.inl rfl)).2
      [] [sampleElem] []⟩

/-- C7: `scrape_data` is a total function of the page state — it only ever
appends records to the accumulator (never raises past its boundary, even
when `find_elements` itself raised, modelled as `none`), and a page with
zero listing elements appends zero records. -/
theorem c7_scrape_data_total (acc : List Record) :
    scrape_data none acc = acc ∧
    scrape_data (some []) acc = acc ∧
    ∀ page : Option (List PropElem), ∃ appended : List Record,
      scrape_data page acc = acc ++ appended := by
  refine ⟨rfl, by simp [scrape_data], fun page => ?_⟩
  cases page with
  | none => exact ⟨[], by simp [scrape_data]⟩
  | some props => exact ⟨props.filterMap scrapeListing, rfl⟩

theorem scrapeListing_some_elim (p : PropElem) (r : Record)
    (h : scrapeListing p = some r) :
    ∃ link status price bed bath sqft lotSize addr,
      p.linkLookup = some link ∧ p.statusLookup = some status ∧
      p.priceLookup = some price ∧ p.bedLookup = some bed ∧
      p.bathLookup = some bath ∧ p.sqftLookup = some sqft ∧
      p.lotSizeLookup = some lotSize ∧ p.addressLookup = some addr ∧
      r = [("Property Status", status), ("Price", price), ("Bed", orNA bed),
           ("Bath", orNA bath), ("Sqft", orNA sqft),
           ("Lot Size", orNA lotSize), ("Address", normAddress addr),
           ("Link", link)] := by
  unfold scrapeListing at h
  rcases hl : p.linkLookup with _ | link
  · simp [hl] at h
  rcases hst : p.statusLookup with _ | status
  · simp [hl, hst] at h
  rcases hpr : p.priceLookup with _ | price
  · simp [hl, hst, hpr] at h
  rcases hb : p.bedLookup with _ | bed
  · simp [hl, hst, hpr, hb] at h
  rcases hba : p.bathLookup with _ | bath
  · simp [hl, hst, hpr, hb, hba] at h
  rcases hsq : p.sqftLookup with _ | sqft
  · simp [hl, hst, hpr, hb, hba, hsq] at h
  rcases hlo : p.lotSizeLookup with _ | lotSize
  · simp [hl, hst, hpr, hb, hba, hsq, hlo] at h
  rcases had : p.addressLookup with _ | addr
  · simp [hl, hst, hpr, hb, hba, hsq, hlo, had] at h
  refine ⟨link, status, price, bed, bath, sqft, lotSize, addr,
    rfl, rfl, rfl, rfl, rfl, rfl, rfl, rfl, ?_⟩
  simp [hl, hst, hpr, hb, hba, hsq, hlo, had] at h
  exact h.symm

/-- C10: when every field lookup of a listing succeeds, an empty
bed/bath/sqft/lot-size text is replaced by the placeholder `N/A` in the
appended record (and non-empty text is kept as is), while empty
status/price/address/link text is passed through unchanged with no
placeholder. -/
theorem c10_empty_text_placeholder (p : PropElem) (r : Record)
    (h : scrapeListing p = some r) :
    (p.bedLookup = some "" → r.lookup "Bed" = some "N/A") ∧
    (p.bathLookup = some "" → r.lookup "Bath" = some "N/A") ∧
    (p.sqftLookup = some "" → r.lookup "Sqft" = some "N/A") ∧
    (p.lotSizeLookup = some "" → r.lookup "Lot Size" = some "N/A") ∧
    (∀ s, p.bedLookup = some s → s ≠ "" → r.lookup "Bed" = some s) ∧
    (∀ s, p.bathLookup = some s → s ≠ "" → r.lookup "Bath" = some s) ∧
    (∀ s, p.sqftLookup = some s → s ≠ "" → r.lookup "Sqft" = some s) ∧
    (∀ s, p.lotSizeLookup = some s → s ≠ "" → r.lookup "Lot Size" = some s) ∧
    (p.statusLookup = some "" → r.lookup "Property Status" = some "") ∧
    (p.priceLookup = some "" → r.lookup "Price" = some "") ∧
    (p.linkLookup = some "" → r.lookup "Link" = some "") ∧
    (p.addressLookup = some "" → r.lookup "Address" = some "") := by
  obtain ⟨link, status, price, bed, bath, sqft, lotSize, addr,
    hl, hst, hpr, hb, hba, hsq, hlo, had, hr⟩ := scrapeListing_some_elim p r h
  subst hr
  refine ⟨?_, ?_, ?_, ?_, ?_, ?_, ?_, ?_, ?_, ?_, ?_, ?_⟩
  · intro hx; rw [hb] at hx; simp only [Option.some.injEq] at hx; subst hx
    simp [List.lookup, orNA]
  · intro hx; rw [hba] at hx; simp only [Option.some.injEq] at hx; subst hx
    simp [List.lookup, orNA]
  · intro hx; rw [hsq] at hx; simp only [Option.some.injEq] at hx; subst hx
    simp [List.lookup, orNA]
  · intro hx; rw [hlo] at hx; simp only [Option.some.injEq] at hx; subst hx
    simp [List.lookup, orNA]
  · intro s hx hne; rw [hb] at hx; simp only [Option.some.injEq] at hx
    subst hx; simp [List.lookup, orNA, hne]
  · intro s hx hne; rw [hba] at hx; simp only [Option.some.injEq] at hx
    subst hx; simp [List.lookup, orNA, hne]
  · intro s hx hne; rw [hsq] at hx; simp only [Option.some.injEq] at hx
    subst hx; simp [List.lookup, orNA, hne]
  · intro s hx hne; rw [hlo] at hx; simp only [Option.some.injEq] at hx
    subst hx; simp [List.lookup, orNA, hne]
  · intro hx; rw [hst] at hx; simp only [Option.some.injEq] at hx; subst hx
    simp [List.lookup]
  · intro hx; rw [hpr] at hx; simp only [Option.some.injEq] at hx; subst hx
    simp [List.lookup]
  · intro hx; rw [hl] at hx; simp only [Option.some.injEq] at hx; subst hx
    simp [List.lookup]
  · intro hx; rw [had] at hx; simp only [Option.some.injEq] at hx; subst hx
    simp [List.lookup, show normAddress "" = "" from rfl]

theorem c10_empty_text_placeholder_witness :
    c10Record.lookup "Bed" = some "N/A" ∧
    c10Record.lookup "Bath" = some "2" ∧
    c10Record.lookup "Property Status" = some "" ∧
    c10Record.lookup "Link" = some "" :=
  ⟨(c10_empty_text_placeholder c10Elem c10Record rfl).1 rfl,
   (c10_empty_text_placeholder c10Elem c10Record rfl).2.2.2.2.2.1 "2" rfl
     (by decide),
   (c10_empty_text_placeholder c10Elem c10Record rfl).2.2.2.2.2.2.2.2.1 rfl,
   (c10_empty_text_placeholder c10Elem c10Record rfl).2.2.2.2.2.2.2.2.2.2.1
     rfl⟩

theorem loadPageGo_true_iff (oracle : Nat → Bool) :
    ∀ n k, loadPageGo oracle n k = true ↔
      ∃ j, k ≤ j ∧ j < k + n ∧ oracle j = true := by
  intro n
  induction n with
  | zero =>
    intro k
    simp only [loadPageGo]
    constructor
    · intro h; cases h
    · rintro ⟨j, h1, h2, _⟩; omega
  | succ n ih =>
    intro k
    by_cases h : oracle k = true
    · simp only [loadPageGo, h, if_true]
      constructor
      · intro _; exact ⟨k, Nat.le_refl k, by omega, h⟩
      · intro _; trivial
    · simp only [loadPageGo, if_neg h]
      rw [ih (k + 1)]
      constructor
      · rintro ⟨j, h1, h2, h3⟩; exact ⟨j, by omega, by omega, h3⟩
      · rintro ⟨j, h1, h2, h3⟩
        refine ⟨j, ?_, by omega, h3⟩
        rcases Nat.eq_or_lt_of_le h1 with rfl | hlt
        · exact absurd h3 h
        · omega

theorem loadPageAttemptsGo_le (oracle : Nat → Bool) :
    ∀ n k, loadPageAttemptsGo oracle n k ≤ n := by
  intro n
  induction n with
  | zero => intro k; exact Nat.le_refl 0
  | succ n ih =>
    intro k
    by_cases h : oracle k = true
    · simp [loadPageAttemptsGo, h]
    · simp only [loadPageAttemptsGo, if_neg h]
      have := ih (k + 1)
      omega

/-- C3: `load_page` makes at most `retries` (default 3) navigation
attempts; it returns `true` exactly when some attempt within the bound
succeeds (in particular when attempt 1 fails but attempt 2 succeeds), and
`false` exactly when all attempts fail; in the run loop a successful load
is followed by extraction of that page. -/
theorem c3_load_page_retries (oracle : Nat → Bool) (retries : Nat) :
    loadPageAttempts oracle retries ≤ retries ∧
    (load_page oracle retries = true ↔
      ∃ k, 1 ≤ k ∧ k ≤ retries ∧ oracle k = true) ∧
    (oracle 1 = false → oracle 2 = true → 2 ≤ retries →
      load_page oracle retries = true) ∧
    (∀ (env : Env) (fuel page : Nat) (acc : List Record) (iters : Nat),
      page ≤ 5 → load_page (env.loadOracle page) 3 = true →
      runLoopGo env (fuel + 1) page acc iters =
        runLoopGo env fuel (page + 1) (scrape_data (env.content page) acc)
          (iters + 1)) := by
  refine ⟨loadPageAttemptsGo_le oracle retries 1, ?_, ?_, ?_⟩
  · rw [load_page, loadPageGo_true_iff]
    constructor
    · rintro ⟨j, h1, h2, h3⟩; exact ⟨j, h1, by omega, h3⟩
    · rintro ⟨j, h1, h2, h3⟩; exact ⟨j, h1, by omega, h3⟩
  · intro h1 h2 hr
    rw [load_page, loadPageGo_true_iff]
    exact ⟨2, by omega, by omega, h2⟩
  · intro env fuel page acc iters hp hl
    simp [runLoopGo, hp, hl]

theorem c3_load_page_retries_witness :
    loadPageAttempts (fun k => k == 2) 3 ≤ 3 ∧
    load_page (fun k => k == 2) 3 = true ∧
    runLoopGo envOnePage 6 1 [] 0 =
      runLoopGo envOnePage 5 2 (scrape_data (envOnePage.content 1) []) 1 :=
  ⟨(c3_load_page_retries (fun k => k == 2) 3).1,
   (c3_load_page_retries (fun k => k == 2) 3).2.2.1 rfl rfl (by norm_num),
   (c3_load_page_retries (fun k => k == 2) 3).2.2.2 envOnePage 5 1 [] 0
     (by norm_num) rfl⟩

theorem runLoopGo_spec (env : Env) :
    ∀ fuel page acc iters, page + fuel = 7 → page ≤ 6 →
      iters ≤ (runLoopGo env fuel page acc iters).iters ∧
      (runLoopGo env fuel page acc iters).iters ≤ iters + (6 - page) ∧
      ((runLoopGo env fuel page acc iters).loadFailed = true ∨
        (runLoopGo env fuel page acc iters).finalPage = 6) ∧
      ((runLoopGo env fuel page acc iters).loadFailed = true →
        (runLoopGo env fuel page acc iters).finalPage + 1 =
          page + ((runLoopGo env fuel page acc iters).iters - iters)) ∧
      ((runLoopGo env fuel page acc iters).loadFailed = false →
        (runLoopGo env fuel page acc iters).finalPage =
          page + ((runLoopGo env fuel page acc iters).iters - iters)) := by
  intro fuel
  induction fuel with
  | zero => intro page acc iters h7 h6; exfalso; omega
  | succ fuel ih =>
    intro page acc iters h7 h6
    by_cases hp : page ≤ 5
    · by_cases hl : load_page (env.loadOracle page) 3 = true
      · simp only [runLoopGo, if_pos hp, if_pos hl]
        obtain ⟨a1, a2, a3, a4, a5⟩ := ih (page + 1)
          (scrape_data (env.content page) acc) (iters + 1) (by omega) (by omega)
        refine ⟨by omega, by omega, a3, ?_, ?_⟩
        · intro hf; have := a4 hf; omega
        · intro hf; have := a5 hf; omega
      · simp only [runLoopGo, if_pos hp, if_neg hl]
        refine ⟨by omega, by omega, Or.inl trivial, ?_, ?_⟩
        · intro _; omega
        · intro hf; simp at hf
    · simp only [runLoopGo, if_neg hp]
      refine ⟨Nat.le_refl iters, by omega, Or.inr (by omega), ?_, ?_⟩
      · intro hf; simp at hf
      · intro _; omega

/-- C4: the run loop enters its body at most 5 times; it stops either
because a `load_page` failed (in which case the final page equals the
iteration count: the counter was bumped once per successful iteration)
or because the page counter passed the bound of 5 — and by no other
means. -/
theorem c4_run_loop_bound (env : Env) :
    (runLoop env).iters ≤ 5 ∧
    ((runLoop env).loadFailed = true ∨ (runLoop env).finalPage = 6) ∧
    ((runLoop env).loadFailed = true →
      (runLoop env).finalPage = (runLoop env).iters) ∧
    ((runLoop env).loadFailed = false →
      (runLoop env).finalPage = (runLoop env).iters + 1) := by
  obtain ⟨a1, a2, a3, a4, a5⟩ := runLoopGo_spec env 6 1 [] 0 (by norm_num)
    (by norm_num)
  have hrl : runLoop env = runLoopGo env 6 1 [] 0 := rfl
  rw [hrl]
  refine ⟨by omega, a3, ?_, ?_⟩
  · intro hf; have := a4 hf; omega
  · intro hf; have := a5 hf; omega

theorem c4_run_loop_bound_witness :
    (runLoop envOnePage).finalPage = (runLoop envOnePage).iters :=
  (c4_run_loop_bound envOnePage).2.2.1 (by decide)

theorem scrape_data_keys (page : Option (List PropElem)) (acc : List Record)
    (h : ∀ r ∈ acc, keysOf r = fieldNames) :
    ∀ r ∈ scrape_data page acc, keysOf r = fieldNames := by
  intro r hr
  cases page with
  | none => exact h r hr
  | some props =>
    simp only [scrape_data, List.mem_append] at hr
    rcases hr with hmem | hmem
    · exact h r hmem
    · obtain ⟨p, _, hp⟩ := List.mem_filterMap.mp hmem
      exact scrapeListing_keys p r hp

theorem runLoopGo_keys (env : Env) :
    ∀ fuel page acc iters, (∀ r ∈ acc, keysOf r = fieldNames) →
      ∀ r ∈ (runLoopGo env fuel page acc iters).data, keysOf r = fieldNames := by
  intro fuel
  induction fuel with
  | zero =>
    intro page acc iters h r hr
    simp only [runLoopGo] at hr
    exact h r hr
  | succ fuel ih =>
    intro page acc iters h r hr
    by_cases hp : page ≤ 5
    · by_cases hl : load_page (env.loadOracle page) 3 = true
      · simp only [runLoopGo, if_pos hp, if_pos hl] at hr
        exact ih (page + 1) _ (iters + 1) (scrape_data_keys _ _ h) r hr
      · simp only [runLoopGo, if_pos hp, if_neg hl] at hr
        exact h r hr
    · simp only [runLoopGo, if_neg hp] at hr
      exact h r hr

theorem foldl_insertKey_keys (r : Record) :
    ∀ cols : List String,
      r.foldl (fun cs kv => insertKey cs kv.1) cols =
        (keysOf r).foldl insertKey cols := by
  induction r with
  | nil => intro cols; rfl
  | cons kv rest ih =>
    intro cols
    simp only [keysOf, List.map_cons, List.foldl_cons]
    simp only [keysOf] at ih
    exact ih (insertKey cols kv.1)

theorem foldl_insertKey_fieldNames :
    fieldNames.foldl insertKey fieldNames = fieldNames := by decide

theorem foldl_insertKey_nil :
    fieldNames.foldl insertKey [] = fieldNames := by decide

theorem dfColumns_fold_uniform (records : List Record)
    (h : ∀ r ∈ records, keysOf r = fieldNames) :
    records.foldl (fun cols r => r.foldl (fun cs kv => insertKey cs kv.1) cols)
      fieldNames = fieldNames := by
  induction records with
  | nil => rfl
  | cons r rest ih =>
    simp only [List.foldl_cons]
    rw [foldl_insertKey_keys, h r (by simp), foldl_insertKey_fieldNames]
    exact ih (fun r' hr' => h r' (by simp [hr']))

theorem dfColumns_uniform (records : List Record)
    (h : ∀ r ∈ records, keysOf r = fieldNames) (hne : records ≠ []) :
    dfColumns records = fieldNames := by
  cases records with
  | nil => exact absurd rfl hne
  | cons r rest =>
    simp only [dfColumns, List.foldl_cons]
    rw [foldl_insertKey_keys, h r (by simp), foldl_insertKey_nil]
    exact dfColumns_fold_uniform rest (fun r' hr' => h r' (by simp [hr']))

/-- C9: every record the run loop ever appends to the accumulator has
exactly the eight fixed keys in the fixed insertion order, so the CSV
column set and order are the field names, independent of the scraped
data. -/
theorem c9_record_keys_fixed (env : Env) :
    (∀ r ∈ (runLoop env).data, keysOf r = fieldNames) ∧
    ((runLoop env).data ≠ [] → dfColumns (runLoop env).data = fieldNames) := by
  have hkeys : ∀ r ∈ (runLoop env).data, keysOf r = fieldNames :=
    runLoopGo_keys env 6 1 [] 0 (fun r hr => absurd hr (List.not_mem_nil r))
  exact ⟨hkeys, fun hne => dfColumns_uniform _ hkeys hne⟩

theorem c9_record_keys_fixed_witness :
    keysOf sampleRecord = fieldNames ∧
    dfColumns [sampleRecord] = fieldNames := by
  have h1 := (c9_record_keys_fixed envOnePage).1 sampleRecord (by decide)
  have h2 := (c9_record_keys_fixed envOnePage).2 (by decide)
  have hd : (runLoop envOnePage).data = [sampleRecord] := by decide
  exact ⟨h1, hd ▸ h2⟩

/-- C5: at the end of `run`, no file is written exactly when the
accumulator is empty; otherwise the single file written is named
`output.csv`, has one header row equal to the record field names, and one
data row per accumulated record. -/
theorem c5_output_rule (env : Env) :
    ((runLoop env).data = [] ↔ (run env).2 = none) ∧
    (∀ name table, (run env).2 = some (name, table) →
      name = "output.csv" ∧
      table.length = (runLoop env).data.length + 1 ∧
      table.head? = some fieldNames) := by
  constructor
  · constructor
    · intro h; simp [run, h]
    · intro h
      by_contra hne
      simp [run, hne] at h
  · intro name table h
    by_cases hd : (runLoop env).data = []
    · simp [run, hd] at h
    · simp only [run, if_neg hd, Option.some.injEq, Prod.mk.injEq] at h
      obtain ⟨hn, ht⟩ := h
      subst hn
      subst ht
      refine ⟨rfl, ?_, ?_⟩
      · simp [toCsvTable]
      · simp only [toCsvTable, List.head?_cons, Option.some.injEq]
        exact dfColumns_uniform _
          (runLoopGo_keys env 6 1 [] 0 (fun r hr => absurd hr (List.not_mem_nil r)))
          hd

theorem c5_output_rule_witness :
    "output.csv" = "output.csv" ∧
    sampleCsv.length = (runLoop envOnePage).data.length + 1 ∧
    sampleCsv.head? = some fieldNames :=
  (c5_output_rule envOnePage).2 "output.csv" sampleCsv (by decide)

theorem runBodyE_trace (env : EnvE) :
    ∀ fuel page acc tr, ∃ tr2,
      (runBodyE env fuel page acc tr).1 = tr ++ tr2 ∧
      ∀ e ∈ tr2, e ≠ Event.quit ∧ ∀ n, e ≠ Event.write n := by
  intro fuel
  induction fuel with
  | zero =>
    intro page acc tr
    exact ⟨[], by simp [runBodyE], by simp⟩
  | succ fuel ih =>
    intro page acc tr
    by_cases hp : page ≤ 5
    · by_cases hf : env.fatal page = true
      · exact ⟨[], by simp [runBodyE, hp, hf], by simp⟩
      · by_cases hl : load_page (env.loadOracle page) 3 = true
        · obtain ⟨tr2, h1, h2⟩ := ih (page + 1) (scrape_data (env.content page) acc)
            (tr ++ [Event.load page true, Event.scrape page])
          refine ⟨[Event.load page true, Event.scrape page] ++ tr2, ?_, ?_⟩
          · simp only [runBodyE, if_pos hp, if_neg hf, hl, if_true]
            rw [h1, List.append_assoc]
          · intro e he
            rcases List.mem_append.mp he with hm | hm
            · have : e = Event.load page true ∨ e = Event.scrape page := by
                simpa using hm
              rcases this with rfl | rfl
              · exact ⟨by simp, fun n => by simp⟩
              · exact ⟨by simp, fun n => by simp⟩
            · exact h2 e hm
        · refine ⟨[Event.load page false], ?_, ?_⟩
          · have hl' : load_page (env.loadOracle page) 3 = false := by
              simpa using hl
            simp [runBodyE, hp, hf, hl']
          · intro e he
            have : e = Event.load page false := by simpa using he
            subst this
            exact ⟨by simp, fun n => by simp⟩
    · exact ⟨[], by simp [runBodyE, hp], by simp⟩

/-- C8: on every exit path of the run loop — normal completion and
escaping interrupt alike — the trace contains the `driver.quit` event, no
file write ever precedes it, and when an exception escapes, nothing (in
particular no write) follows it before the exception leaves `run`. -/
theorem c8_quit_on_all_paths (env : EnvE) :
    ∃ pre post, (runE env).1 = pre ++ Event.quit :: post ∧
      (∀ e ∈ pre, ∀ n, e ≠ Event.write n) ∧
      ((runE env).2 = Outcome.raised → post = []) := by
  obtain ⟨tr2, h1, h2⟩ := runBodyE_trace env 6 1 [] []
  simp only [List.nil_append] at h1
  rcases hrb : runBodyE env 6 1 [] [] with ⟨tr, acc, out⟩
  rw [hrb] at h1
  simp only at h1
  subst h1
  cases out with
  | raised =>
    refine ⟨tr, [], ?_, fun e he n => (h2 e he).2 n, fun _ => rfl⟩
    simp [runE, hrb]
  | normal =>
    refine ⟨tr, if acc = [] then [] else [Event.write acc.length], ?_, ?_, ?_⟩
    · simp [runE, hrb]
    · exact fun e he n => (h2 e he).2 n
    · intro hcontra
      exfalso
      simp only [runE, hrb] at hcontra
      exact Outcome.noConfusion hcontra

theorem c8_quit_on_all_paths_witness :
    ∃ pre post, (runE envFatal).1 = pre ++ Event.quit :: post ∧
      (∀ e ∈ pre, ∀ n, e ≠ Event.write n) ∧
      ((runE envFatal).2 = Outcome.raised → post = []) :=
  c8_quit_on_all_paths envFatal

theorem ofDigits_natDigitsGo :
    ∀ fuel n, n ≤ fuel → Nat.ofDigits 10 (natDigitsGo fuel n) = n := by
  intro fuel
  induction fuel with
  | zero =>
    intro n hn
    interval_cases n
    simp [natDigitsGo, Nat.ofDigits_nil]
  | succ fuel ih =>
    intro n hn
    cases n with
    | zero => simp [natDigitsGo, Nat.ofDigits_nil]
    | succ m =>
      simp only [natDigitsGo, Nat.ofDigits_cons]
      rw [ih ((m + 1) / 10) (by omega)]
      omega

theorem natDigitsGo_lt :
    ∀ fuel n d, d ∈ natDigitsGo fuel n → d < 10 := by
  intro fuel
  induction fuel with
  | zero => intro n d hd; simp [natDigitsGo] at hd
  | succ fuel ih =>
    intro n d hd
    cases n with
    | zero => simp [natDigitsGo] at hd
    | succ m =>
      simp only [natDigitsGo, List.mem_cons] at hd
      rcases hd with rfl | hd
      · omega
      · exact ih _ d hd

theorem digitChar_props (d : Nat) (hd : d < 10) :
    isDigitChar (Char.ofNat (d + 48)) = true ∧
    (Char.ofNat (d + 48)).toNat - 48 = d ∧
    (Char.ofNat (d + 48) != '/') = true := by
  interval_cases d <;> exact ⟨rfl, rfl, rfl⟩

theorem natRepr_data (n : Nat) :
    (natRepr n).data = if n = 0 then ['0']
      else ((natDigitsGo n n).reverse).map (fun d => Char.ofNat (d + 48)) := by
  by_cases h : n = 0 <;> simp [natRepr, h]

theorem natRepr_digits (n : Nat) :
    (natRepr n).data ≠ [] ∧ ∀ c ∈ (natRepr n).data, isDigitChar c = true := by
  rw [natRepr_data]
  by_cases h : n = 0
  · rw [if_pos h]
    exact ⟨by decide, by decide⟩
  · rw [if_neg h]
    constructor
    · have hne : natDigitsGo n n ≠ [] := by
        cases n with
        | zero => exact absurd rfl h
        | succ m => simp [natDigitsGo]
      simp [hne]
    · intro c hc
      simp only [List.mem_map, List.mem_reverse] at hc
      obtain ⟨d, hd, rfl⟩ := hc
      exact (digitChar_props d (natDigitsGo_lt n n d hd)).1

theorem map_char_roundtrip (l : List Nat) (hl : ∀ d ∈ l, d < 10) :
    l.map (fun d => (Char.ofNat (d + 48)).toNat - 48) = l := by
  induction l with
  | nil => rfl
  | cons d rest ih =>
    simp only [List.map_cons]
    rw [(digitChar_props d (hl d (by simp))).2.1,
      ih (fun x hx => hl x (by simp [hx]))]

theorem parseNatChars_natRepr (n : Nat) :
    parseNatChars (natRepr n).data = some n := by
  by_cases h : n = 0
  · subst h; decide
  · obtain ⟨hne, hdig⟩ := natRepr_digits n
    have hall : ((natRepr n).data).all isDigitChar = true :=
      List.all_eq_true.mpr hdig
    rw [parseNatChars, if_pos ⟨hne, hall⟩]
    have hd : (natRepr n).data =
        ((natDigitsGo n n).reverse).map (fun d => Char.ofNat (d + 48)) := by
      rw [natRepr_data, if_neg h]
    rw [hd, ← List.map_reverse, List.reverse_reverse, List.map_map]
    have hcomp : ((fun c : Char => c.toNat - 48) ∘
        (fun d : Nat => Char.ofNat (d + 48))) =
        fun d : Nat => (Char.ofNat (d + 48)).toNat - 48 := rfl
    rw [hcomp, map_char_roundtrip (natDigitsGo n n) (natDigitsGo_lt n n),
      ofDigits_natDigitsGo n n (Nat.le_refl n)]

theorem digit_ne_slash (c : Char) (h : isDigitChar c = true) :
    (c != '/') = true := by
  cases hbe : c == '/' with
  | false => simp [bne, hbe]
  | true =>
    have hc : c = '/' := eq_of_beq hbe
    subst hc
    exact absurd h (by decide)

theorem takeWhile_append_of_all (pred : Char → Bool) :
    ∀ (a : List Char) (c : Char) (b : List Char),
      (∀ x ∈ a, pred x = true) → pred c = false →
      (a ++ c :: b).takeWhile pred = a := by
  intro a
  induction a with
  | nil =>
    intro c b _ hc
    simp only [List.nil_append, List.takeWhile_cons, hc]
    simp
  | cons x xs ih =>
    intro c b ha hc
    have hx : pred x = true := ha x (by simp)
    simp only [List.cons_append, List.takeWhile_cons, hx, if_true]
    rw [ih c b (fun y hy => ha y (by simp [hy])) hc]

/-- C6 fails as literally stated: for ZIP code 75034 and page 5 the
page number's digit string occurs twice in the URL (once inside the ZIP
code's digits), not exactly once. -/
theorem c6_counterexample :
    get_page_url 75034 5 =
      "https://www.realtor.com/realestateandhomes-search/75034/pg-5" ∧
    countOccur (natRepr 5).data (get_page_url 75034 5).data = 2 := by
  exact ⟨by decide, by decide⟩

/-- C6 (amended): `get_page_url` is a deterministic function of the ZIP
code and page number, equal to the fixed base path with the ZIP and the
page interpolated exactly once each at fixed positions — so both are
uniquely recoverable from their positions in the URL — although their
digit strings may additionally occur elsewhere in the URL as substrings. -/
theorem c6_url_shape_roundtrip (z pg : Nat) :
    get_page_url z pg = urlPrefix ++ natRepr z ++ "/pg-" ++ natRepr pg ∧
    parseUrl (get_page_url z pg) = some (z, pg) := by
  refine ⟨rfl, ?_⟩
  obtain ⟨hzne, hzdig⟩ := natRepr_digits z
  have hdata : (get_page_url z pg).data =
      urlPrefix.data ++ ((natRepr z).data ++
        ('/' :: 'p' :: 'g' :: '-' :: (natRepr pg).data)) := by
    show (urlPrefix ++ natRepr z ++ "/pg-" ++ natRepr pg).data = _
    have : ∀ a b : String, (a ++ b).data = a.data ++ b.data := fun a b => rfl
    rw [this, this, this]
    simp [List.append_assoc]
  have htw : ((natRepr z).data ++
      ('/' :: 'p' :: 'g' :: '-' :: (natRepr pg).data)).takeWhile
        (fun c => c != '/') = (natRepr z).data :=
    takeWhile_append_of_all _ _ '/' _
      (fun x hx => digit_ne_slash x (hzdig x hx)) (by decide)
  rw [parseUrl]
  simp only [hdata, List.take_left, List.drop_left, htw, if_pos]
  have htake4 : ('/' :: 'p' :: 'g' :: '-' :: (natRepr pg).data).take 4 =
      ([ '/', 'p', 'g', '-'] : List Char) := rfl
  have hdrop4 : ('/' :: 'p' :: 'g' :: '-' :: (natRepr pg).data).drop 4 =
      (natRepr pg).data := rfl
  rw [htake4, if_pos rfl, hdrop4, parseNatChars_natRepr, parseNatChars_natRepr]

end RealtorScraper
